import Mathlib

/-!
# Verification of the InteractiveAvatar presentation and session core

This development gives a shallow embedding of the core state-coordination
logic of the InteractiveAvatar client:

* the ending-sequencer timer chain of InteractiveAvatar.tsx
  (startCountdownSequence and the avatar speech event handlers),
* the VideoController and handleVideoStateChange of AvatarVideo.tsx,
* the stop teardown of useStreamingAvatarSession,
* the volume gate processVolumeLevel of useAudioMonitor.ts, and
* startMonitoring and stopMonitoring of useAudioMonitor.ts,

and proves (or refutes) the specified properties about them.
-/

namespace EndingSeq

/-- Timer state of the ending sequencer in InteractiveAvatar.tsx.
JavaScript timers live in a global table keyed by unique ids; here the
pending timers of each kind (the 3000 ms debounce, the 5000 ms countdown
and the anonymous 100 ms session-ending dispatch) are kept as lists of
ids, so that arming a second timer of a kind without cancelling the first
would be observable.  The two refs mirror debounceTimerRef and
countdownTimerRef, which may go stale after a timer has fired. -/
structure AvState where
  debounceRef : Option Nat
  countdownRef : Option Nat
  lastMsg : Nat
  pendDeb : List Nat
  pendCd : List Nat
  pendDisp : List Nat
  nextId : Nat
  stopCalls : Nat
  endingEvents : Nat
deriving DecidableEq, Repr

/-- Initial component state: no timers, lastAvatarMessageTime = 0. -/
def AvState.start : AvState :=
  { debounceRef := none, countdownRef := none, lastMsg := 0
    pendDeb := [], pendCd := [], pendDisp := []
    nextId := 0, stopCalls := 0, endingEvents := 0 }

/-- clearTimeout(debounceTimerRef.current); debounceTimerRef.current = null.
Removing the id from every kind list models the single global timer table. -/
def clearDebounce (s : AvState) : AvState :=
  match s.debounceRef with
  | none => s
  | some i =>
      { s with pendDeb := s.pendDeb.erase i, pendCd := s.pendCd.erase i
               pendDisp := s.pendDisp.erase i, debounceRef := none }

/-- clearTimeout(countdownTimerRef.current); countdownTimerRef.current = null. -/
def clearCountdown (s : AvState) : AvState :=
  match s.countdownRef with
  | none => s
  | some i =>
      { s with pendDeb := s.pendDeb.erase i, pendCd := s.pendCd.erase i
               pendDisp := s.pendDisp.erase i, countdownRef := none }

/-- Arm a fresh 3000 ms debounce timer (the setTimeout at the end of
startCountdownSequence). -/
def armDebounce (s : AvState) : AvState :=
  { s with pendDeb := s.pendDeb ++ [s.nextId]
           debounceRef := some s.nextId, nextId := s.nextId + 1 }

/-- startCountdownSequence: clear both existing timers, then arm a fresh
debounce timer. -/
def startCountdownSequence (s : AvState) : AvState :=
  armDebounce (clearCountdown (clearDebounce s))

/-- Body of the 3000 ms debounce callback, executed at wall-clock time
now.  Mirrors InteractiveAvatar.tsx lines 600-642: an abort happens only
when the timestamp is reliable (positive and strictly in the past) and
speech was within the last 2000 ms; otherwise - including the unreliable
case - the 5000 ms countdown is armed. -/
def debounceFired (now : Nat) (s : AvState) : AvState :=
  if (0 < s.lastMsg ∧ s.lastMsg < now) ∧ (now : Int) - (s.lastMsg : Int) < 2000 then
    s
  else
    { s with pendCd := s.pendCd ++ [s.nextId]
             countdownRef := some s.nextId, debounceRef := none
             nextId := s.nextId + 1 }

/-- Body of the 5000 ms countdown callback: stopAvatar() is invoked, the
anonymous 100 ms session-ending dispatch timer is armed, and
countdownTimerRef is nulled. -/
def countdownFired (s : AvState) : AvState :=
  { s with stopCalls := s.stopCalls + 1
           pendDisp := s.nextId :: s.pendDisp, nextId := s.nextId + 1
           countdownRef := none }

/-- Events delivered to the sequencer: the SDK speech events, the two
cancelling events, and the elapsing of each pending timer.  A timer can
only elapse while its id is pending. -/
inductive Ev
  | avatarStartTalking (t : Nat)
  | avatarTalkingMessage (t : Nat)
  | avatarStopTalking (t : Nat)
  | streamDisconnected
  | userStart
  | fireDebounce (i now : Nat)
  | fireCountdown (i : Nat)
  | fireDispatch (i : Nat)
deriving DecidableEq, Repr

/-- One atomic handler execution (the event loop runs handlers to
completion, so each case is a single step). -/
def step (s : AvState) (e : Ev) : AvState :=
  match e with
  | .avatarStartTalking t => clearCountdown (clearDebounce { s with lastMsg := t })
  | .avatarTalkingMessage t => clearCountdown (clearDebounce { s with lastMsg := t })
  | .avatarStopTalking t => startCountdownSequence { s with lastMsg := t }
  | .streamDisconnected => clearCountdown (clearDebounce { s with lastMsg := 0 })
  | .userStart => clearCountdown (clearDebounce s)
  | .fireDebounce i now =>
      if i ∈ s.pendDeb then debounceFired now { s with pendDeb := s.pendDeb.erase i }
      else s
  | .fireCountdown i =>
      if i ∈ s.pendCd then countdownFired { s with pendCd := s.pendCd.erase i }
      else s
  | .fireDispatch i =>
      if i ∈ s.pendDisp then
        { s with pendDisp := s.pendDisp.erase i, endingEvents := s.endingEvents + 1 }
      else s

/-- Run an event sequence from the initial state. -/
def run (evs : List Ev) : AvState := evs.foldl step AvState.start

/-- Well-formedness invariant of the timer state, established for every
reachable state: ids are below the fresh-id counter, each kind list is
empty or the singleton tracked by its ref, debounce and countdown are
never pending together, and a ref id never aliases a timer of another
kind. -/
structure ChainInv (s : AvState) : Prop where
  debLt : ∀ i ∈ s.pendDeb, i < s.nextId
  cdLt : ∀ i ∈ s.pendCd, i < s.nextId
  dispLt : ∀ i ∈ s.pendDisp, i < s.nextId
  debRefLt : ∀ i, s.debounceRef = some i → i < s.nextId
  cdRefLt : ∀ i, s.countdownRef = some i → i < s.nextId
  debShape : s.pendDeb = [] ∨ ∃ i, s.debounceRef = some i ∧ s.pendDeb = [i]
  cdShape : s.pendCd = [] ∨ ∃ j, s.countdownRef = some j ∧ s.pendCd = [j]
  excl : s.pendDeb = [] ∨ s.pendCd = []
  debRefSep : ∀ i, s.debounceRef = some i → i ∉ s.pendCd ∧ i ∉ s.pendDisp
  cdRefSep : ∀ j, s.countdownRef = some j → j ∉ s.pendDeb ∧ j ∉ s.pendDisp

theorem chainInv_start : ChainInv AvState.start := by
  constructor <;> simp [AvState.start]

/-- Under the invariant, clearing the debounce timer just empties the
debounce list and nulls its ref. -/
theorem clearDebounce_eq {s : AvState} (h : ChainInv s) :
    clearDebounce s = { s with pendDeb := [], debounceRef := none } := by
  unfold clearDebounce
  cases hr : s.debounceRef with
  | none =>
      rcases h.debShape with hd | ⟨i, hi, _⟩
      · cases s
        simp_all
      · rw [hr] at hi
        exact absurd hi (by simp)
  | some i =>
      have hsep := h.debRefSep i hr
      rcases h.debShape with hd | ⟨i', hi', hl⟩
      · simp [hd, List.erase_of_not_mem hsep.1, List.erase_of_not_mem hsep.2]
      · rw [hr] at hi'
        have : i' = i := by injection hi'.symm
        subst this
        simp [hl, List.erase_of_not_mem hsep.1, List.erase_of_not_mem hsep.2]

/-- Under the invariant, clearing the countdown timer just empties the
countdown list and nulls its ref. -/
theorem clearCountdown_eq {s : AvState} (h : ChainInv s) :
    clearCountdown s = { s with pendCd := [], countdownRef := none } := by
  unfold clearCountdown
  cases hr : s.countdownRef with
  | none =>
      rcases h.cdShape with hd | ⟨j, hj, _⟩
      · cases s
        simp_all
      · rw [hr] at hj
        exact absurd hj (by simp)
  | some j =>
      have hsep := h.cdRefSep j hr
      rcases h.cdShape with hd | ⟨j', hj', hl⟩
      · simp [hd, List.erase_of_not_mem hsep.1, List.erase_of_not_mem hsep.2]
      · rw [hr] at hj'
        have : j' = j := by injection hj'.symm
        subst this
        simp [hl, List.erase_of_not_mem hsep.1, List.erase_of_not_mem hsep.2]

theorem chainInv_lastMsg {s : AvState} (h : ChainInv s) (t : Nat) :
    ChainInv { s with lastMsg := t } := by
  cases h
  constructor <;> assumption

theorem notMem_nil_elim {α : Type} {i : α} {C : Prop} (hi : i ∈ ([] : List α)) : C := by
  simp at hi

theorem noneNeSome_elim {i : Nat} {C : Prop} (hi : (none : Option Nat) = some i) : C := by
  simp at hi

theorem chainInv_debCleared {s : AvState} (h : ChainInv s) :
    ChainInv { s with pendDeb := [], debounceRef := none } :=
  { debLt := fun _ hi => notMem_nil_elim hi
    cdLt := h.cdLt
    dispLt := h.dispLt
    debRefLt := fun _ hi => noneNeSome_elim hi
    cdRefLt := h.cdRefLt
    debShape := Or.inl rfl
    cdShape := h.cdShape
    excl := Or.inl rfl
    debRefSep := fun _ hi => noneNeSome_elim hi
    cdRefSep := fun j hj => ⟨fun hm => notMem_nil_elim hm, (h.cdRefSep j hj).2⟩ }

theorem chainInv_bothCleared {s : AvState} (h : ChainInv s) :
    ChainInv { s with pendDeb := [], debounceRef := none
                      pendCd := [], countdownRef := none } :=
  { debLt := fun _ hi => notMem_nil_elim hi
    cdLt := fun _ hi => notMem_nil_elim hi
    dispLt := h.dispLt
    debRefLt := fun _ hi => noneNeSome_elim hi
    cdRefLt := fun _ hi => noneNeSome_elim hi
    debShape := Or.inl rfl
    cdShape := Or.inl rfl
    excl := Or.inl rfl
    debRefSep := fun _ hi => noneNeSome_elim hi
    cdRefSep := fun _ hi => noneNeSome_elim hi }

/-- Clearing both timers (as every cancelling handler does) empties both
kind lists and nulls both refs, leaving everything else untouched. -/
theorem clearBoth_eq {s : AvState} (h : ChainInv s) :
    clearCountdown (clearDebounce s) =
      { s with pendDeb := [], debounceRef := none
               pendCd := [], countdownRef := none } := by
  rw [clearDebounce_eq h, clearCountdown_eq (chainInv_debCleared h)]

/-- Explicit form of the avatar-stopped-talking step. -/
theorem step_stopTalking_eq {s : AvState} (h : ChainInv s) (t : Nat) :
    step s (.avatarStopTalking t) =
      { s with lastMsg := t
               pendDeb := [s.nextId], debounceRef := some s.nextId
               pendCd := [], countdownRef := none
               nextId := s.nextId + 1 } := by
  show startCountdownSequence { s with lastMsg := t } = _
  unfold startCountdownSequence
  rw [clearBoth_eq (chainInv_lastMsg h t)]
  rfl

theorem chainInv_armed {s : AvState} (h : ChainInv s) (t : Nat) :
    ChainInv { s with lastMsg := t
                      pendDeb := [s.nextId], debounceRef := some s.nextId
                      pendCd := [], countdownRef := none
                      nextId := s.nextId + 1 } :=
  { debLt := by
      intro i hi
      have hi' : i ∈ [s.nextId] := hi
      have : i = s.nextId := by simpa using hi'
      show i < s.nextId + 1
      omega
    cdLt := fun _ hi => notMem_nil_elim hi
    dispLt := by
      intro i hi
      have := h.dispLt i hi
      show i < s.nextId + 1
      omega
    debRefLt := by
      intro i hi
      have hi' : some s.nextId = some i := hi
      injection hi' with hi'
      show i < s.nextId + 1
      omega
    cdRefLt := fun _ hi => noneNeSome_elim hi
    debShape := Or.inr ⟨s.nextId, rfl, rfl⟩
    cdShape := Or.inl rfl
    excl := Or.inr rfl
    debRefSep := by
      intro i hi
      have hi' : some s.nextId = some i := hi
      injection hi' with hi'
      subst hi'
      refine ⟨fun hm => notMem_nil_elim hm, fun hm => ?_⟩
      have := h.dispLt _ hm
      omega
    cdRefSep := fun _ hi => noneNeSome_elim hi }

/-- The invariant is preserved by every event. -/
theorem chainInv_step {s : AvState} (h : ChainInv s) (e : Ev) :
    ChainInv (step s e) := by
  cases e with
  | avatarStartTalking t =>
      show ChainInv (clearCountdown (clearDebounce { s with lastMsg := t }))
      rw [clearBoth_eq (chainInv_lastMsg h t)]
      exact chainInv_bothCleared (chainInv_lastMsg h t)
  | avatarTalkingMessage t =>
      show ChainInv (clearCountdown (clearDebounce { s with lastMsg := t }))
      rw [clearBoth_eq (chainInv_lastMsg h t)]
      exact chainInv_bothCleared (chainInv_lastMsg h t)
  | avatarStopTalking t =>
      rw [step_stopTalking_eq h t]
      exact chainInv_armed h t
  | streamDisconnected =>
      show ChainInv (clearCountdown (clearDebounce { s with lastMsg := 0 }))
      rw [clearBoth_eq (chainInv_lastMsg h 0)]
      exact chainInv_bothCleared (chainInv_lastMsg h 0)
  | userStart =>
      show ChainInv (clearCountdown (clearDebounce s))
      rw [clearBoth_eq h]
      exact chainInv_bothCleared h
  | fireDebounce i now =>
      show ChainInv (if i ∈ s.pendDeb then _ else s)
      split
      case isFalse => exact h
      case isTrue hmem =>
        rcases h.debShape with hd | ⟨i', hi', hl⟩
        · rw [hd] at hmem
          exact notMem_nil_elim hmem
        · rw [hl] at hmem
          have hii : i = i' := by simpa using hmem
          subst hii
          have herase : s.pendDeb.erase i = ([] : List Nat) := by
            rw [hl]
            simp
          show ChainInv (debounceFired now { s with pendDeb := s.pendDeb.erase i })
          unfold debounceFired
          split
          case isTrue =>
            exact
              { debLt := fun j hj => notMem_nil_elim (herase ▸ hj)
                cdLt := h.cdLt
                dispLt := h.dispLt
                debRefLt := h.debRefLt
                cdRefLt := h.cdRefLt
                debShape := Or.inl herase
                cdShape := h.cdShape
                excl := Or.inl herase
                debRefSep := h.debRefSep
                cdRefSep := fun j hj =>
                  ⟨fun hm => notMem_nil_elim (herase ▸ hm), (h.cdRefSep j hj).2⟩ }
          case isFalse =>
            have hcd : s.pendCd = [] := by
              rcases h.excl with hx | hx
              · rw [hx] at hl
                exact absurd hl (by simp)
              · exact hx
            exact
              { debLt := fun j hj => notMem_nil_elim (herase ▸ hj)
                cdLt := by
                  intro j hj
                  have hj' : j ∈ s.pendCd ++ [s.nextId] := hj
                  rw [hcd] at hj'
                  have : j = s.nextId := by simpa using hj'
                  show j < s.nextId + 1
                  omega
                dispLt := by
                  intro j hj
                  have := h.dispLt j hj
                  show j < s.nextId + 1
                  omega
                debRefLt := fun _ hj => noneNeSome_elim hj
                cdRefLt := by
                  intro j hj
                  have hj' : some s.nextId = some j := hj
                  injection hj' with hj'
                  show j < s.nextId + 1
                  omega
                debShape := Or.inl herase
                cdShape := Or.inr ⟨s.nextId, rfl, by
                  show s.pendCd ++ [s.nextId] = [s.nextId]
                  rw [hcd]
                  rfl⟩
                excl := Or.inl herase
                debRefSep := fun _ hj => noneNeSome_elim hj
                cdRefSep := by
                  intro j hj
                  have hj' : some s.nextId = some j := hj
                  injection hj' with hj'
                  subst hj'
                  refine ⟨fun hm => notMem_nil_elim (herase ▸ hm), fun hm => ?_⟩
                  have := h.dispLt _ hm
                  omega }
  | fireCountdown i =>
      show ChainInv (if i ∈ s.pendCd then _ else s)
      split
      case isFalse => exact h
      case isTrue hmem =>
        rcases h.cdShape with hd | ⟨j, hj, hl⟩
        · rw [hd] at hmem
          exact notMem_nil_elim hmem
        · rw [hl] at hmem
          have hii : i = j := by simpa using hmem
          subst hii
          have herase : s.pendCd.erase i = ([] : List Nat) := by
            rw [hl]
            simp
          show ChainInv (countdownFired { s with pendCd := s.pendCd.erase i })
          unfold countdownFired
          exact
            { debLt := by
                intro k hk
                have := h.debLt k hk
                show k < s.nextId + 1
                omega
              cdLt := fun k hk => notMem_nil_elim (herase ▸ hk)
              dispLt := by
                intro k hk
                have hk' : k ∈ s.nextId :: s.pendDisp := hk
                show k < s.nextId + 1
                rcases List.mem_cons.mp hk' with he | hm
                · omega
                · have := h.dispLt k hm
                  omega
              debRefLt := by
                intro k hk
                have := h.debRefLt k hk
                show k < s.nextId + 1
                omega
              cdRefLt := fun _ hk => noneNeSome_elim hk
              debShape := h.debShape
              cdShape := Or.inl herase
              excl := Or.inr herase
              debRefSep := by
                intro k hk
                have hsep := h.debRefSep k hk
                refine ⟨fun hm => notMem_nil_elim (herase ▸ hm), fun hm => ?_⟩
                have hm' : k ∈ s.nextId :: s.pendDisp := hm
                rcases List.mem_cons.mp hm' with he | hmm
                · have := h.debRefLt k hk
                  omega
                · exact hsep.2 hmm
              cdRefSep := fun _ hk => noneNeSome_elim hk }
  | fireDispatch i =>
      show ChainInv (if i ∈ s.pendDisp then _ else s)
      split
      case isFalse => exact h
      case isTrue hmem =>
        exact
          { debLt := h.debLt
            cdLt := h.cdLt
            dispLt := fun k hk => h.dispLt k (List.mem_of_mem_erase hk)
            debRefLt := h.debRefLt
            cdRefLt := h.cdRefLt
            debShape := h.debShape
            cdShape := h.cdShape
            excl := h.excl
            debRefSep := fun k hk =>
              ⟨(h.debRefSep k hk).1,
               fun hkd => (h.debRefSep k hk).2 (List.mem_of_mem_erase hkd)⟩
            cdRefSep := fun k hk =>
              ⟨(h.cdRefSep k hk).1,
               fun hkd => (h.cdRefSep k hk).2 (List.mem_of_mem_erase hkd)⟩ }

theorem chainInv_foldl (s : AvState) (h : ChainInv s) (evs : List Ev) :
    ChainInv (evs.foldl step s) := by
  induction evs generalizing s with
  | nil => exact h
  | cons e rest ih => exact ih _ (chainInv_step h e)

/-- Every reachable state satisfies the invariant. -/
theorem chainInv_run (evs : List Ev) : ChainInv (run evs) :=
  chainInv_foldl _ chainInv_start evs

theorem run_append (evs evs' : List Ev) :
    run (evs ++ evs') = evs'.foldl step (run evs) :=
  List.foldl_append ..

/-- Claim C1: for every sequence of speech events, at most one debounce
timer and at most one countdown timer are pending at any time, and an
avatar-stopped-talking event (the only caller of startCountdownSequence)
leaves exactly the fresh debounce timer pending, with every previously
pending debounce or countdown timer cancelled, so no timer of a
superseded chain can elapse. -/
theorem C1_timer_pair_exclusive :
    ∀ evs : List Ev,
      (run evs).pendDeb.length ≤ 1 ∧ (run evs).pendCd.length ≤ 1 ∧
      ∀ t : Nat,
        (run (evs ++ [Ev.avatarStopTalking t])).pendDeb = [(run evs).nextId] ∧
        (run (evs ++ [Ev.avatarStopTalking t])).pendCd = [] ∧
        ∀ i : Nat, i ∈ (run evs).pendDeb ∨ i ∈ (run evs).pendCd →
          i ∉ (run (evs ++ [Ev.avatarStopTalking t])).pendDeb ∧
          i ∉ (run (evs ++ [Ev.avatarStopTalking t])).pendCd := by
  intro evs
  have h := chainInv_run evs
  refine ⟨?_, ?_, ?_⟩
  · rcases h.debShape with hd | ⟨i, _, hl⟩
    · rw [hd]
      simp
    · rw [hl]
      simp
  · rcases h.cdShape with hd | ⟨i, _, hl⟩
    · rw [hd]
      simp
    · rw [hl]
      simp
  · intro t
    have hstep : run (evs ++ [Ev.avatarStopTalking t])
        = step (run evs) (Ev.avatarStopTalking t) := run_append evs _
    rw [hstep, step_stopTalking_eq h t]
    refine ⟨rfl, rfl, ?_⟩
    intro i hi
    have hlt : i < (run evs).nextId := by
      rcases hi with hm | hm
      · exact h.debLt i hm
      · exact h.cdLt i hm
    constructor
    · intro hmem
      have hmem' : i ∈ [(run evs).nextId] := hmem
      have : i = (run evs).nextId := by simpa using hmem'
      omega
    · intro hmem
      exact notMem_nil_elim hmem

/-- Witness for C1 at a concrete trace: the debounce timer armed by a
first stop-talking event is cancelled by a second one. -/
theorem C1_timer_pair_exclusive_witness :
    0 ∈ (run [Ev.avatarStopTalking 5]).pendDeb ∧
    0 ∉ (run ([Ev.avatarStopTalking 5] ++ [Ev.avatarStopTalking 7])).pendDeb ∧
    0 ∉ (run ([Ev.avatarStopTalking 5] ++ [Ev.avatarStopTalking 7])).pendCd := by
  have h := ((C1_timer_pair_exclusive [Ev.avatarStopTalking 5]).2.2 7).2.2 0
    (Or.inl (by decide))
  exact ⟨by decide, h.1, h.2⟩

/-- A state with no pending debounce and no pending countdown timer: no
ending chain is in flight. -/
def noChain (s : AvState) : Prop := s.pendDeb = [] ∧ s.pendCd = []

/-- Any event other than avatar-stopped-talking keeps the chain dead:
no stopAvatar call happens and no new session-ending dispatch is armed. -/
theorem quiet_step {s : AvState} (h : ChainInv s) (hnc : noChain s) {e : Ev}
    (he : ∀ t, e ≠ Ev.avatarStopTalking t) :
    noChain (step s e) ∧ (step s e).stopCalls = s.stopCalls ∧
      (step s e).endingEvents + (step s e).pendDisp.length
        = s.endingEvents + s.pendDisp.length := by
  cases e with
  | avatarStartTalking t =>
      have hst : step s (Ev.avatarStartTalking t)
          = { s with lastMsg := t, pendDeb := [], debounceRef := none
                     pendCd := [], countdownRef := none } := by
        show clearCountdown (clearDebounce { s with lastMsg := t }) = _
        exact clearBoth_eq (chainInv_lastMsg h t)
      rw [hst]
      exact ⟨⟨rfl, rfl⟩, rfl, rfl⟩
  | avatarTalkingMessage t =>
      have hst : step s (Ev.avatarTalkingMessage t)
          = { s with lastMsg := t, pendDeb := [], debounceRef := none
                     pendCd := [], countdownRef := none } := by
        show clearCountdown (clearDebounce { s with lastMsg := t }) = _
        exact clearBoth_eq (chainInv_lastMsg h t)
      rw [hst]
      exact ⟨⟨rfl, rfl⟩, rfl, rfl⟩
  | avatarStopTalking t => exact absurd rfl (he t)
  | streamDisconnected =>
      have hst : step s Ev.streamDisconnected
          = { s with lastMsg := 0, pendDeb := [], debounceRef := none
                     pendCd := [], countdownRef := none } := by
        show clearCountdown (clearDebounce { s with lastMsg := 0 }) = _
        exact clearBoth_eq (chainInv_lastMsg h 0)
      rw [hst]
      exact ⟨⟨rfl, rfl⟩, rfl, rfl⟩
  | userStart =>
      have hst : step s Ev.userStart
          = { s with pendDeb := [], debounceRef := none
                     pendCd := [], countdownRef := none } := by
        show clearCountdown (clearDebounce s) = _
        exact clearBoth_eq h
      rw [hst]
      exact ⟨⟨rfl, rfl⟩, rfl, rfl⟩
  | fireDebounce i now =>
      have hni : i ∉ s.pendDeb := by
        rw [hnc.1]
        simp
      have hst : step s (Ev.fireDebounce i now) = s := by
        show (if i ∈ s.pendDeb then _ else s) = s
        rw [if_neg hni]
      rw [hst]
      exact ⟨hnc, rfl, rfl⟩
  | fireCountdown i =>
      have hni : i ∉ s.pendCd := by
        rw [hnc.2]
        simp
      have hst : step s (Ev.fireCountdown i) = s := by
        show (if i ∈ s.pendCd then _ else s) = s
        rw [if_neg hni]
      rw [hst]
      exact ⟨hnc, rfl, rfl⟩
  | fireDispatch i =>
      by_cases hmem : i ∈ s.pendDisp
      · have hst : step s (Ev.fireDispatch i)
            = { s with pendDisp := s.pendDisp.erase i
                       endingEvents := s.endingEvents + 1 } := by
          show (if i ∈ s.pendDisp then _ else s) = _
          rw [if_pos hmem]
        rw [hst]
        refine ⟨hnc, rfl, ?_⟩
        have h1 := List.length_erase_of_mem hmem
        have h2 := List.length_pos_of_mem hmem
        show s.endingEvents + 1 + (s.pendDisp.erase i).length = _
        omega
      · have hst : step s (Ev.fireDispatch i) = s := by
          show (if i ∈ s.pendDisp then _ else s) = s
          rw [if_neg hmem]
        rw [hst]
        exact ⟨hnc, rfl, rfl⟩

theorem quiet_foldl (suf : List Ev) :
    ∀ s : AvState, ChainInv s → noChain s →
      (∀ e ∈ suf, ∀ t, e ≠ Ev.avatarStopTalking t) →
      noChain (suf.foldl step s) ∧ (suf.foldl step s).stopCalls = s.stopCalls ∧
        (suf.foldl step s).endingEvents + (suf.foldl step s).pendDisp.length
          = s.endingEvents + s.pendDisp.length := by
  induction suf with
  | nil => exact fun s _ hnc _ => ⟨hnc, rfl, rfl⟩
  | cons e rest ih =>
      intro s h hnc he
      have hq := quiet_step h hnc (he e (by simp))
      have hrest := ih (step s e) (chainInv_step h e) hq.1
        (fun e' he' => he e' (by simp [he']))
      rw [List.foldl_cons]
      obtain ⟨hq1, hq2, hq3⟩ := hq
      obtain ⟨hr1, hr2, hr3⟩ := hrest
      refine ⟨hr1, ?_, ?_⟩ <;> omega

/-- Claim C2: once an avatar-started-talking event is handled, both chain
timers are cancelled, and as long as no new avatar-stopped-talking event
arrives, no stopAvatar call is made and no new session-ending dispatch is
created (the dispatch budget endingEvents plus pending dispatch timers is
unchanged), so an interrupted chain can never stop the session nor emit
its session-ending event. -/
theorem C2_start_talking_kills_chain :
    ∀ (pre : List Ev) (t : Nat) (suf : List Ev),
      (∀ e ∈ suf, ∀ u : Nat, e ≠ Ev.avatarStopTalking u) →
      (run (pre ++ [Ev.avatarStartTalking t])).pendDeb = [] ∧
      (run (pre ++ [Ev.avatarStartTalking t])).pendCd = [] ∧
      (run (pre ++ Ev.avatarStartTalking t :: suf)).stopCalls
        = (run (pre ++ [Ev.avatarStartTalking t])).stopCalls ∧
      (run (pre ++ Ev.avatarStartTalking t :: suf)).endingEvents
          + (run (pre ++ Ev.avatarStartTalking t :: suf)).pendDisp.length
        = (run (pre ++ [Ev.avatarStartTalking t])).endingEvents
          + (run (pre ++ [Ev.avatarStartTalking t])).pendDisp.length := by
  intro pre t suf hsuf
  have h0 := chainInv_run pre
  have hs1 : run (pre ++ [Ev.avatarStartTalking t])
      = step (run pre) (Ev.avatarStartTalking t) := run_append pre _
  have hnc : noChain (run (pre ++ [Ev.avatarStartTalking t])) := by
    rw [hs1]
    show noChain (clearCountdown (clearDebounce { run pre with lastMsg := t }))
    rw [clearBoth_eq (chainInv_lastMsg h0 t)]
    exact ⟨rfl, rfl⟩
  have hInv1 : ChainInv (run (pre ++ [Ev.avatarStartTalking t])) := by
    rw [hs1]
    exact chainInv_step h0 _
  have hsplit : pre ++ Ev.avatarStartTalking t :: suf
      = (pre ++ [Ev.avatarStartTalking t]) ++ suf := by
    simp
  have hrun : run (pre ++ Ev.avatarStartTalking t :: suf)
      = suf.foldl step (run (pre ++ [Ev.avatarStartTalking t])) := by
    rw [hsplit, run_append]
  have hq := quiet_foldl suf _ hInv1 hnc hsuf
  rw [hrun]
  exact ⟨hnc.1, hnc.2, hq.2.1, hq.2.2⟩

/-- Witness for C2 at a concrete trace: a chain armed by stop-talking is
interrupted by start-talking; the superseded debounce and countdown fire
events are dead and the session is never stopped. -/
theorem C2_start_talking_kills_chain_witness :
    (run ([Ev.avatarStopTalking 5] ++ [Ev.avatarStartTalking 7])).pendDeb = [] ∧
    (run ([Ev.avatarStopTalking 5] ++ [Ev.avatarStartTalking 7])).pendCd = [] ∧
    (run ([Ev.avatarStopTalking 5] ++ Ev.avatarStartTalking 7
        :: [Ev.fireDebounce 0 3005, Ev.fireCountdown 1])).stopCalls
      = (run ([Ev.avatarStopTalking 5] ++ [Ev.avatarStartTalking 7])).stopCalls ∧
    (run ([Ev.avatarStopTalking 5] ++ Ev.avatarStartTalking 7
        :: [Ev.fireDebounce 0 3005, Ev.fireCountdown 1])).endingEvents
        + (run ([Ev.avatarStopTalking 5] ++ Ev.avatarStartTalking 7
            :: [Ev.fireDebounce 0 3005, Ev.fireCountdown 1])).pendDisp.length
      = (run ([Ev.avatarStopTalking 5] ++ [Ev.avatarStartTalking 7])).endingEvents
        + (run ([Ev.avatarStopTalking 5]
            ++ [Ev.avatarStartTalking 7])).pendDisp.length :=
  C2_start_talking_kills_chain [Ev.avatarStopTalking 5] 7
    [Ev.fireDebounce 0 3005, Ev.fireCountdown 1]
    (by intro e he u; fin_cases he <;> simp)

/-- Claim C3 counterexample: after a stop-talking event carrying
timestamp 0 the last-speech timestamp is 0, which the claim calls
unreliable and requires a silent abort; yet when the debounce timer
fires the code arms the 5000 ms countdown (timer id 1 becomes pending
and countdownTimerRef is set). -/
theorem C3_counterexample :
    (run [Ev.avatarStopTalking 0]).lastMsg = 0 ∧
    0 ∈ (run [Ev.avatarStopTalking 0]).pendDeb ∧
    (run [Ev.avatarStopTalking 0, Ev.fireDebounce 0 3000]).pendCd = [1] ∧
    (run [Ev.avatarStopTalking 0, Ev.fireDebounce 0 3000]).countdownRef = some 1 := by
  decide

/-- Claim C3 (amended): when the debounce timer fires, the sequencer
aborts silently - removing only the elapsed timer, arming nothing and not
restarting itself - exactly when the timestamp is reliable (positive and
strictly before now) and speech occurred within the last 2000 ms; in
every other case, including an unreliable timestamp of zero or one not in
the past, it proceeds and arms the 5000 ms countdown timer. -/
theorem C3_debounce_recheck (s : AvState) (i now : Nat) (h : i ∈ s.pendDeb) :
    ((0 < s.lastMsg ∧ s.lastMsg < now) ∧ (now : Int) - (s.lastMsg : Int) < 2000 →
      step s (Ev.fireDebounce i now) = { s with pendDeb := s.pendDeb.erase i }) ∧
    (¬((0 < s.lastMsg ∧ s.lastMsg < now) ∧ (now : Int) - (s.lastMsg : Int) < 2000) →
      step s (Ev.fireDebounce i now) =
        { s with pendDeb := s.pendDeb.erase i
                 pendCd := s.pendCd ++ [s.nextId]
                 countdownRef := some s.nextId, debounceRef := none
                 nextId := s.nextId + 1 }) := by
  constructor
  · intro hc
    show (if i ∈ s.pendDeb then
        debounceFired now { s with pendDeb := s.pendDeb.erase i } else s) = _
    rw [if_pos h]
    unfold debounceFired
    rw [if_pos hc]
  · intro hc
    show (if i ∈ s.pendDeb then
        debounceFired now { s with pendDeb := s.pendDeb.erase i } else s) = _
    rw [if_pos h]
    unfold debounceFired
    rw [if_neg hc]

/-- Witness for C3 at concrete states: a reliable recent timestamp makes
the fired debounce abort; an unreliable zero timestamp makes it proceed
with the countdown. -/
theorem C3_debounce_recheck_witness :
    step (run [Ev.avatarStopTalking 1000]) (Ev.fireDebounce 0 2500)
      = { run [Ev.avatarStopTalking 1000] with
            pendDeb := (run [Ev.avatarStopTalking 1000]).pendDeb.erase 0 } ∧
    step (run [Ev.avatarStopTalking 0]) (Ev.fireDebounce 0 3000)
      = { run [Ev.avatarStopTalking 0] with
            pendDeb := (run [Ev.avatarStopTalking 0]).pendDeb.erase 0
            pendCd := (run [Ev.avatarStopTalking 0]).pendCd
              ++ [(run [Ev.avatarStopTalking 0]).nextId]
            countdownRef := some (run [Ev.avatarStopTalking 0]).nextId
            debounceRef := none
            nextId := (run [Ev.avatarStopTalking 0]).nextId + 1 } :=
  ⟨(C3_debounce_recheck (run [Ev.avatarStopTalking 1000]) 0 2500 (by decide)).1
      (by decide),
   (C3_debounce_recheck (run [Ev.avatarStopTalking 0]) 0 3000 (by decide)).2
      (by decide)⟩

end EndingSeq

namespace VolumeGate

/-- Configuration of useAudioMonitor.ts: threshold is a percentage on the
0-100 scale, intervals and durations in milliseconds. -/
structure AudioMonitorConfig where
  volumeThreshold : ℚ
  checkInterval : Nat
  sustainDuration : Nat
deriving DecidableEq, Repr

/-- DEFAULT_CONFIG of useAudioMonitor.ts. -/
def DEFAULT_CONFIG : AudioMonitorConfig :=
  { volumeThreshold := 20, checkInterval := 100, sustainDuration := 50 }

/-- The three volume-tracking refs of the gate. -/
structure VolState where
  highStart : Option Nat
  lowStart : Option Nat
  currentlyMuted : Bool
deriving DecidableEq, Repr

def VolState.start : VolState :=
  { highStart := none, lowStart := none, currentlyMuted := false }

/-- The mute and unmute intents the gate can emit. -/
inductive MuteIntent
  | mute
  | unmute
deriving DecidableEq, Repr

/-- processVolumeLevel of useAudioMonitor.ts, called with the sampled
volume and the current wall-clock time: on a loud sample start or keep
the high-since timestamp, reset the low-since timestamp, and fire mute
once the sustained duration is reached while not already muted; the low
branch is symmetric. -/
def processVolumeLevel (cfg : AudioMonitorConfig) (now : Nat) (volume : ℚ)
    (s : VolState) : VolState × Option MuteIntent :=
  if cfg.volumeThreshold < volume then
    if (cfg.sustainDuration : Int) ≤ (now : Int) - ((s.highStart.getD now : Nat) : Int)
        ∧ s.currentlyMuted = false then
      (⟨some (s.highStart.getD now), none, true⟩, some .mute)
    else
      (⟨some (s.highStart.getD now), none, s.currentlyMuted⟩, none)
  else
    if (cfg.sustainDuration : Int) ≤ (now : Int) - ((s.lowStart.getD now : Nat) : Int)
        ∧ s.currentlyMuted = true then
      (⟨none, some (s.lowStart.getD now), false⟩, some .unmute)
    else
      (⟨none, some (s.lowStart.getD now), s.currentlyMuted⟩, none)

/-- Final gate state after a series of timed samples. -/
def volFinal (cfg : AudioMonitorConfig) (s : VolState) (l : List (Nat × ℚ)) :
    VolState :=
  l.foldl (fun st p => (processVolumeLevel cfg p.1 p.2 st).1) s

/-- The intents emitted over a series of timed samples, in order. -/
def volEvents (cfg : AudioMonitorConfig) (s : VolState) :
    List (Nat × ℚ) → List MuteIntent
  | [] => []
  | p :: rest =>
      (processVolumeLevel cfg p.1 p.2 s).2.toList
        ++ volEvents cfg (processVolumeLevel cfg p.1 p.2 s).1 rest

/-- Per-sample outputs over a series of timed samples (one entry per
sample, some intent or none). -/
def volTrace (cfg : AudioMonitorConfig) (s : VolState) :
    List (Nat × ℚ) → List (Option MuteIntent)
  | [] => []
  | p :: rest =>
      (processVolumeLevel cfg p.1 p.2 s).2
        :: volTrace cfg (processVolumeLevel cfg p.1 p.2 s).1 rest

def muteCount (l : List MuteIntent) : Nat :=
  (l.filter (fun e => e == MuteIntent.mute)).length

theorem muteCount_append (a b : List MuteIntent) :
    muteCount (a ++ b) = muteCount a + muteCount b := by
  simp [muteCount, List.filter_append]

theorem volEvents_append (cfg : AudioMonitorConfig) (l1 l2 : List (Nat × ℚ)) :
    ∀ s, volEvents cfg s (l1 ++ l2)
      = volEvents cfg s l1 ++ volEvents cfg (volFinal cfg s l1) l2 := by
  induction l1 with
  | nil => intro s; rfl
  | cons p rest ih =>
      intro s
      show (processVolumeLevel cfg p.1 p.2 s).2.toList
          ++ volEvents cfg (processVolumeLevel cfg p.1 p.2 s).1 (rest ++ l2) = _
      rw [ih]
      show _ = (processVolumeLevel cfg p.1 p.2 s).2.toList
          ++ volEvents cfg (processVolumeLevel cfg p.1 p.2 s).1 rest
          ++ volEvents cfg (volFinal cfg s (p :: rest)) l2
      rw [List.append_assoc]
      rfl

/-- A below-threshold sample never emits a mute intent. -/
theorem low_sample_no_mute (cfg : AudioMonitorConfig) (now : Nat) (v : ℚ)
    (s : VolState) (h : ¬ cfg.volumeThreshold < v) :
    muteCount (processVolumeLevel cfg now v s).2.toList = 0 := by
  unfold processVolumeLevel
  rw [if_neg h]
  split
  · rfl
  · rfl

/-- A series of below-threshold samples emits no mute intent from any
state. -/
theorem lows_no_mute (cfg : AudioMonitorConfig) :
    ∀ (l : List (Nat × ℚ)) (s : VolState),
      (∀ p ∈ l, p.2 ≤ cfg.volumeThreshold) →
      muteCount (volEvents cfg s l) = 0 := by
  intro l
  induction l with
  | nil => intro s _; rfl
  | cons p rest ih =>
      intro s hall
      have hv : ¬ cfg.volumeThreshold < p.2 := not_lt.mpr (hall p (by simp))
      show muteCount ((processVolumeLevel cfg p.1 p.2 s).2.toList
        ++ volEvents cfg (processVolumeLevel cfg p.1 p.2 s).1 rest) = 0
      rw [muteCount_append, low_sample_no_mute cfg p.1 p.2 s hv,
        ih _ (fun q hq => hall q (by simp [hq]))]

/-- While the gate is already muted, above-threshold samples emit nothing
and leave it muted. -/
theorem highs_while_muted (cfg : AudioMonitorConfig) :
    ∀ (l : List (Nat × ℚ)) (s : VolState),
      (∀ p ∈ l, cfg.volumeThreshold < p.2) → s.currentlyMuted = true →
      volEvents cfg s l = [] ∧ (volFinal cfg s l).currentlyMuted = true := by
  intro l
  induction l with
  | nil => intro s _ hm; exact ⟨rfl, hm⟩
  | cons p rest ih =>
      intro s hall hm
      have hv : cfg.volumeThreshold < p.2 := hall p (by simp)
      have hstep : processVolumeLevel cfg p.1 p.2 s
          = (⟨some (s.highStart.getD p.1), none, s.currentlyMuted⟩, none) := by
        unfold processVolumeLevel
        rw [if_pos hv, if_neg]
        intro hc
        rw [hm] at hc
        exact absurd hc.2 (by simp)
      have hrest := ih ⟨some (s.highStart.getD p.1), none, s.currentlyMuted⟩
        (fun q hq => hall q (by simp [hq])) hm
      constructor
      · show (processVolumeLevel cfg p.1 p.2 s).2.toList
          ++ volEvents cfg (processVolumeLevel cfg p.1 p.2 s).1 rest = []
        rw [hstep]
        exact hrest.1
      · show (volFinal cfg (processVolumeLevel cfg p.1 p.2 s).1 rest).currentlyMuted
          = true
        rw [hstep]
        exact hrest.2

/-- From an unmuted state whose high-since timestamp is h0, a run of
above-threshold samples emits exactly one mute intent if some sample lies
at least sustainDuration after h0, and none otherwise. -/
theorem highs_while_unmuted (cfg : AudioMonitorConfig) :
    ∀ (l : List (Nat × ℚ)) (s : VolState) (h0 : Nat),
      (∀ p ∈ l, cfg.volumeThreshold < p.2) →
      s.highStart = some h0 → s.currentlyMuted = false →
      muteCount (volEvents cfg s l)
        = if ∃ p ∈ l, (cfg.sustainDuration : Int) ≤ (p.1 : Int) - (h0 : Int)
          then 1 else 0 := by
  intro l
  induction l with
  | nil =>
      intro s h0 _ _ _
      rw [if_neg (by simp)]
      rfl
  | cons p rest ih =>
      intro s h0 hall hs hm
      have hv : cfg.volumeThreshold < p.2 := hall p (by simp)
      have hgetD : s.highStart.getD p.1 = h0 := by rw [hs]; rfl
      by_cases hfire : (cfg.sustainDuration : Int) ≤ (p.1 : Int) - (h0 : Int)
      · have hstep : processVolumeLevel cfg p.1 p.2 s
            = (⟨some h0, none, true⟩, some .mute) := by
          unfold processVolumeLevel
          rw [if_pos hv, hgetD, if_pos ⟨hfire, hm⟩]
        have hrest := highs_while_muted cfg rest ⟨some h0, none, true⟩
          (fun q hq => hall q (by simp [hq])) rfl
        show muteCount ((processVolumeLevel cfg p.1 p.2 s).2.toList
          ++ volEvents cfg (processVolumeLevel cfg p.1 p.2 s).1 rest) = _
        rw [hstep]
        show muteCount ([MuteIntent.mute]
          ++ volEvents cfg ⟨some h0, none, true⟩ rest) = _
        rw [hrest.1, if_pos ⟨p, by simp, hfire⟩]
        rfl
      · have hstep : processVolumeLevel cfg p.1 p.2 s
            = (⟨some h0, none, false⟩, none) := by
          unfold processVolumeLevel
          rw [if_pos hv, hgetD, if_neg, hm]
          intro hc
          exact hfire hc.1
        show muteCount ((processVolumeLevel cfg p.1 p.2 s).2.toList
          ++ volEvents cfg (processVolumeLevel cfg p.1 p.2 s).1 rest) = _
        rw [hstep]
        show muteCount ([] ++ volEvents cfg ⟨some h0, none, false⟩ rest) = _
        rw [List.nil_append, ih ⟨some h0, none, false⟩ h0
          (fun q hq => hall q (by simp [hq])) rfl rfl]
        by_cases hex : ∃ q ∈ rest, (cfg.sustainDuration : Int) ≤ (q.1 : Int) - (h0 : Int)
        · rw [if_pos hex, if_pos]
          obtain ⟨q, hq, hqf⟩ := hex
          exact ⟨q, by simp [hq], hqf⟩
        · rw [if_neg hex, if_neg]
          intro hc
          obtain ⟨q, hq, hqf⟩ := hc
          rcases List.mem_cons.mp hq with he | hmem
          · exact hfire (he ▸ hqf)
          · exact hex ⟨q, hmem, hqf⟩

theorem hysteresis_short (cfg : AudioMonitorConfig) (t0 d : Nat)
    (highs lows : List (Nat × ℚ))
    (hsust : 0 < cfg.sustainDuration)
    (hspan : d + 1 = cfg.sustainDuration)
    (hhigh : ∀ p ∈ highs, cfg.volumeThreshold < p.2 ∧ t0 ≤ p.1 ∧ p.1 ≤ t0 + d)
    (hlow : ∀ p ∈ lows, p.2 ≤ cfg.volumeThreshold) :
    muteCount (volEvents cfg VolState.start (highs ++ lows)) = 0 := by
  rw [volEvents_append, muteCount_append, lows_no_mute cfg lows _ hlow]
  cases highs with
  | nil => rfl
  | cons p rest =>
      have hv : cfg.volumeThreshold < p.2 := (hhigh p (by simp)).1
      have hstep : processVolumeLevel cfg p.1 p.2 VolState.start
          = (⟨some p.1, none, false⟩, none) := by
        have hneg : ¬((cfg.sustainDuration : Int)
            ≤ (p.1 : Int) - ((VolState.start.highStart.getD p.1 : Nat) : Int)
            ∧ VolState.start.currentlyMuted = false) := by
          intro hc
          have h2 : (cfg.sustainDuration : Int) ≤ (p.1 : Int) - (p.1 : Int) := hc.1
          omega
        unfold processVolumeLevel
        rw [if_pos hv, if_neg hneg]
        rfl
      show muteCount ((processVolumeLevel cfg p.1 p.2 VolState.start).2.toList
        ++ volEvents cfg (processVolumeLevel cfg p.1 p.2 VolState.start).1 rest)
          + 0 = 0
      rw [hstep]
      show muteCount ([] ++ volEvents cfg ⟨some p.1, none, false⟩ rest) + 0 = 0
      rw [List.nil_append,
        highs_while_unmuted cfg rest ⟨some p.1, none, false⟩ p.1
        (fun q hq => (hhigh q (by simp [hq])).1) rfl rfl,
        if_neg]
      intro hc
      obtain ⟨q, hq, hqf⟩ := hc
      have hqb := (hhigh q (by simp [hq])).2
      have hpb := (hhigh p (by simp)).2
      omega

theorem hysteresis_long (cfg : AudioMonitorConfig) (t0 : Nat) (v0 : ℚ)
    (rest lows : List (Nat × ℚ))
    (hhigh : ∀ p ∈ (t0, v0) :: rest, cfg.volumeThreshold < p.2)
    (hex : ∃ p ∈ (t0, v0) :: rest, p.1 = t0 + cfg.sustainDuration + 1)
    (hlow : ∀ p ∈ lows, p.2 ≤ cfg.volumeThreshold) :
    muteCount (volEvents cfg VolState.start (((t0, v0) :: rest) ++ lows)) = 1 := by
  rw [volEvents_append, muteCount_append, lows_no_mute cfg lows _ hlow]
  have hv : cfg.volumeThreshold < v0 := hhigh (t0, v0) (by simp)
  by_cases hz : cfg.sustainDuration = 0
  · have hstep : processVolumeLevel cfg t0 v0 VolState.start
        = (⟨some t0, none, true⟩, some .mute) := by
      have hpos : (cfg.sustainDuration : Int)
          ≤ (t0 : Int) - ((VolState.start.highStart.getD t0 : Nat) : Int)
          ∧ VolState.start.currentlyMuted = false := by
        refine ⟨?_, rfl⟩
        show (cfg.sustainDuration : Int) ≤ (t0 : Int) - (t0 : Int)
        rw [hz]
        simp
      unfold processVolumeLevel
      rw [if_pos hv, if_pos hpos]
      rfl
    have hrest := highs_while_muted cfg rest ⟨some t0, none, true⟩
      (fun q hq => hhigh q (by simp [hq])) rfl
    show muteCount ((processVolumeLevel cfg t0 v0 VolState.start).2.toList
      ++ volEvents cfg (processVolumeLevel cfg t0 v0 VolState.start).1 rest)
        + 0 = 1
    rw [hstep]
    show muteCount ([MuteIntent.mute]
      ++ volEvents cfg ⟨some t0, none, true⟩ rest) + 0 = 1
    rw [hrest.1]
    rfl
  · have hstep : processVolumeLevel cfg t0 v0 VolState.start
        = (⟨some t0, none, false⟩, none) := by
      have hneg : ¬((cfg.sustainDuration : Int)
          ≤ (t0 : Int) - ((VolState.start.highStart.getD t0 : Nat) : Int)
          ∧ VolState.start.currentlyMuted = false) := by
        intro hc
        have h2 : (cfg.sustainDuration : Int) ≤ (t0 : Int) - (t0 : Int) := hc.1
        omega
      unfold processVolumeLevel
      rw [if_pos hv, if_neg hneg]
      rfl
    show muteCount ((processVolumeLevel cfg t0 v0 VolState.start).2.toList
      ++ volEvents cfg (processVolumeLevel cfg t0 v0 VolState.start).1 rest)
        + 0 = 1
    rw [hstep]
    show muteCount ([] ++ volEvents cfg ⟨some t0, none, false⟩ rest) + 0 = 1
    rw [List.nil_append,
      highs_while_unmuted cfg rest ⟨some t0, none, false⟩ t0
        (fun q hq => hhigh q (by simp [hq])) rfl rfl,
      if_pos]
    obtain ⟨q, hq, hqf⟩ := hex
    rcases List.mem_cons.mp hq with he | hmem
    · rw [he] at hqf
      exact absurd hqf (by omega)
    · exact ⟨q, hmem, by omega⟩

/-- Claim C7: from the initial unmuted state, a sampled loudness series
whose above-threshold samples all fall in a window one millisecond
shorter than sustainDuration, followed by a drop below the threshold,
fires no mute intent; a series whose above-threshold run starts at t0 and
contains a sample sustainDuration plus one millisecond later fires the
mute intent exactly once. -/
theorem C7_volume_hysteresis :
    (∀ (cfg : AudioMonitorConfig) (t0 d : Nat) (highs lows : List (Nat × ℚ)),
        0 < cfg.sustainDuration → d + 1 = cfg.sustainDuration →
        (∀ p ∈ highs, cfg.volumeThreshold < p.2 ∧ t0 ≤ p.1 ∧ p.1 ≤ t0 + d) →
        (∀ p ∈ lows, p.2 ≤ cfg.volumeThreshold) →
        muteCount (volEvents cfg VolState.start (highs ++ lows)) = 0) ∧
    (∀ (cfg : AudioMonitorConfig) (t0 : Nat) (v0 : ℚ)
        (rest lows : List (Nat × ℚ)),
        (∀ p ∈ (t0, v0) :: rest, cfg.volumeThreshold < p.2) →
        (∃ p ∈ (t0, v0) :: rest, p.1 = t0 + cfg.sustainDuration + 1) →
        (∀ p ∈ lows, p.2 ≤ cfg.volumeThreshold) →
        muteCount (volEvents cfg VolState.start (((t0, v0) :: rest) ++ lows)) = 1) :=
  ⟨hysteresis_short, hysteresis_long⟩

/-- Witness for C7 with the default threshold 20 and sustain 50: a loud
run spanning 49 ms then a drop fires nothing; a loud run spanning 51 ms
fires exactly one mute. -/
theorem C7_volume_hysteresis_witness :
    muteCount (volEvents DEFAULT_CONFIG VolState.start
      ([((0 : Nat), (25 : ℚ)), (49, 25)] ++ [(100, 5)])) = 0 ∧
    muteCount (volEvents DEFAULT_CONFIG VolState.start
      ((((0 : Nat), (25 : ℚ)) :: [(51, 25)]) ++ [(100, 5)])) = 1 :=
  ⟨C7_volume_hysteresis.1 DEFAULT_CONFIG 0 49 [(0, 25), (49, 25)] [(100, 5)]
      (by decide) (by decide) (by decide) (by decide),
   C7_volume_hysteresis.2 DEFAULT_CONFIG 0 25 [(51, 25)] [(100, 5)]
      (by decide) (by decide) (by decide)⟩

/-- The configuration of the C8 scenario: threshold 20 percent, sampling
every 100 ms, sustain 100 ms. -/
def cfg8 : AudioMonitorConfig := { DEFAULT_CONFIG with sustainDuration := 100 }

/-- The C8 volume series, sampled every 100 ms. -/
def samples8 : List (Nat × ℚ) := [(0, 5), (100, 5), (200, 25), (300, 25), (400, 25)]

/-- Claim C8 counterexample: on the series 5, 5, 25, 25, 25 percent with
threshold 20 and sustain 100 ms, the mute intent fires at the second
above-threshold sample (index 3, 100 ms of sustained loudness), not at
the third above-threshold sample (index 4) as claimed. -/
theorem C8_counterexample :
    (volTrace cfg8 VolState.start samples8)[3]? = some (some MuteIntent.mute) ∧
    (volTrace cfg8 VolState.start samples8)[4]? ≠ some (some MuteIntent.mute) := by
  decide

/-- Claim C8 (amended): on the series 5, 5, 25, 25, 25 percent with
threshold 20 and sustain 100 ms, the mute intent fires at the second
above-threshold sample - 100 ms after the first loud sample - and at no
other sample. -/
theorem C8_mute_at_second_high_sample :
    volTrace cfg8 VolState.start samples8
      = [none, none, none, some MuteIntent.mute, none] := by
  decide

/-- Checks that a list of intents strictly alternates, starting with a
mute when the accumulator is false. -/
def altFrom : Bool → List MuteIntent → Bool
  | _, [] => true
  | b, MuteIntent.mute :: r => if b then false else altFrom true r
  | b, MuteIntent.unmute :: r => if b then altFrom false r else false

theorem alt_volEvents (cfg : AudioMonitorConfig) :
    ∀ (l : List (Nat × ℚ)) (s : VolState),
      altFrom s.currentlyMuted (volEvents cfg s l) = true := by
  intro l
  induction l with
  | nil => intro s; rfl
  | cons p rest ih =>
      intro s
      show altFrom s.currentlyMuted
        ((processVolumeLevel cfg p.1 p.2 s).2.toList
          ++ volEvents cfg (processVolumeLevel cfg p.1 p.2 s).1 rest) = true
      by_cases hv : cfg.volumeThreshold < p.2
      · by_cases hf : (cfg.sustainDuration : Int)
            ≤ (p.1 : Int) - ((s.highStart.getD p.1 : Nat) : Int)
            ∧ s.currentlyMuted = false
        · have hstep : processVolumeLevel cfg p.1 p.2 s
              = (⟨some (s.highStart.getD p.1), none, true⟩, some .mute) := by
            unfold processVolumeLevel
            rw [if_pos hv, if_pos hf]
          rw [hstep, hf.2]
          exact ih ⟨some (s.highStart.getD p.1), none, true⟩
        · have hstep : processVolumeLevel cfg p.1 p.2 s
              = (⟨some (s.highStart.getD p.1), none, s.currentlyMuted⟩, none) := by
            unfold processVolumeLevel
            rw [if_pos hv, if_neg hf]
          rw [hstep]
          exact ih ⟨some (s.highStart.getD p.1), none, s.currentlyMuted⟩
      · by_cases hf : (cfg.sustainDuration : Int)
            ≤ (p.1 : Int) - ((s.lowStart.getD p.1 : Nat) : Int)
            ∧ s.currentlyMuted = true
        · have hstep : processVolumeLevel cfg p.1 p.2 s
              = (⟨none, some (s.lowStart.getD p.1), false⟩, some .unmute) := by
            unfold processVolumeLevel
            rw [if_neg hv, if_pos hf]
          rw [hstep, hf.2]
          exact ih ⟨none, some (s.lowStart.getD p.1), false⟩
        · have hstep : processVolumeLevel cfg p.1 p.2 s
              = (⟨none, some (s.lowStart.getD p.1), s.currentlyMuted⟩, none) := by
            unfold processVolumeLevel
            rw [if_neg hv, if_neg hf]
          rw [hstep]
          exact ih ⟨none, some (s.lowStart.getD p.1), s.currentlyMuted⟩

/-- Claim C9: for every configuration and every sampled volume sequence
from the initial unmuted state, the emitted intents strictly alternate
and the first intent, if any, is a mute. -/
theorem C9_strict_alternation :
    ∀ (cfg : AudioMonitorConfig) (samples : List (Nat × ℚ)),
      altFrom false (volEvents cfg VolState.start samples) = true :=
  fun cfg samples => alt_volEvents cfg samples VolState.start

end VolumeGate

namespace Presentation

/-- The five mutually exclusive video surfaces of AvatarVideo.tsx. -/
inductive VideoState
  | loop
  | intro
  | streaming
  | ending
  | error
deriving DecidableEq, Repr

/-- The observable playback state of one video element. -/
structure Surface where
  paused : Bool
  currentTime : Nat
deriving DecidableEq, Repr

/-- All five video elements, addressed by their surface. -/
def Surfaces := VideoState → Surface

/-- The per-element body of stopAllVideos: if the element is not paused,
pause it and reset currentTime to 0; an already paused element is left
untouched. -/
def pauseReset (x : Surface) : Surface :=
  if x.paused then x else ⟨true, 0⟩

/-- VideoController.stopAllVideos. -/
def stopAllVideos (ss : Surfaces) : Surfaces :=
  fun v => pauseReset (ss v)

/-- VideoController.stopAllVideosExcept: pause and reset every surface
other than the given one, which is left completely untouched. -/
def stopAllVideosExcept (t : VideoState) (ss : Surfaces) : Surfaces :=
  fun v => if v = t then ss v else pauseReset (ss v)

/-- VideoController.playVideo with the target element available and the
play call succeeding: stop every video, seek the target to 0 and play it. -/
def playVideo (t : VideoState) (ss : Surfaces) : Surfaces :=
  fun v => if v = t then ⟨false, 0⟩ else pauseReset (ss v)

/-- The presentation state: the React videoState plus the five media
elements. -/
structure PresState where
  videoState : VideoState
  surfaces : Surfaces

/-- handleVideoStateChange of AvatarVideo.tsx: ignore a transition to the
current state; entering streaming only stops the other surfaces without
starting the stream element; any other target is started via playVideo. -/
def handleVideoStateChange (new : VideoState) (st : PresState) : PresState :=
  if new = st.videoState then st
  else if new = VideoState.streaming then
    ⟨new, stopAllVideosExcept VideoState.streaming st.surfaces⟩
  else
    ⟨new, playVideo new st.surfaces⟩

/-- Events: a requested surface transition, or one millisecond of
playback progress on every playing element. -/
inductive PEv
  | transition (v : VideoState)
  | tick
deriving DecidableEq, Repr

def tickSurf (x : Surface) : Surface :=
  if x.paused then x else ⟨false, x.currentTime + 1⟩

def pstep (st : PresState) (e : PEv) : PresState :=
  match e with
  | .transition v => handleVideoStateChange v st
  | .tick => ⟨st.videoState, fun v => tickSurf (st.surfaces v)⟩

/-- At mount the loop video autoplays from position 0 and the four other
elements sit paused at 0. -/
def initSurfaces : Surfaces :=
  fun v => if v = VideoState.loop then ⟨false, 0⟩ else ⟨true, 0⟩

def PresState.start : PresState := ⟨VideoState.loop, initSurfaces⟩

def prun (evs : List PEv) : PresState := evs.foldl pstep PresState.start

/-- How many surfaces are currently playing. -/
def activeCount (ss : Surfaces) : Nat :=
  (if (ss VideoState.loop).paused then 0 else 1)
    + (if (ss VideoState.intro).paused then 0 else 1)
    + (if (ss VideoState.streaming).paused then 0 else 1)
    + (if (ss VideoState.ending).paused then 0 else 1)
    + (if (ss VideoState.error).paused then 0 else 1)

/-- Reachability invariant: only the current videoState's surface can be
playing, and every paused surface sits at its start position. -/
def PresInv (st : PresState) : Prop :=
  (∀ v, (st.surfaces v).paused = false → v = st.videoState) ∧
  (∀ v, (st.surfaces v).paused = true → (st.surfaces v).currentTime = 0)

theorem pauseReset_paused (x : Surface) : (pauseReset x).paused = true := by
  unfold pauseReset
  cases hp : x.paused
  · simp
  · simp [hp]

theorem pauseReset_time (x : Surface)
    (hx : x.paused = true → x.currentTime = 0) :
    (pauseReset x).currentTime = 0 := by
  unfold pauseReset
  cases hp : x.paused
  · simp
  · simp [hp, hx hp]

theorem tickSurf_paused (x : Surface) : (tickSurf x).paused = x.paused := by
  unfold tickSurf
  cases hp : x.paused
  · simp [hp]
  · simp [hp]

theorem tickSurf_of_paused (x : Surface) (h : x.paused = true) :
    tickSurf x = x := by
  unfold tickSurf
  simp [h]

theorem presInv_start : PresInv PresState.start := by
  constructor
  · intro v hv
    cases v <;> simp_all [PresState.start, initSurfaces]
  · intro v hv
    cases v <;> simp_all [PresState.start, initSurfaces]

theorem presInv_pstep {st : PresState} (h : PresInv st) (e : PEv) :
    PresInv (pstep st e) := by
  cases e with
  | tick =>
      constructor
      · intro v hv
        rw [show (pstep st PEv.tick).surfaces v = tickSurf (st.surfaces v) from rfl,
          tickSurf_paused] at hv
        exact h.1 v hv
      · intro v hv
        rw [show (pstep st PEv.tick).surfaces v = tickSurf (st.surfaces v) from rfl,
          tickSurf_paused] at hv
        rw [show (pstep st PEv.tick).surfaces v = tickSurf (st.surfaces v) from rfl,
          tickSurf_of_paused _ hv]
        exact h.2 v hv
  | transition new =>
      show PresInv (handleVideoStateChange new st)
      unfold handleVideoStateChange
      by_cases hsame : new = st.videoState
      · rw [if_pos hsame]
        exact h
      · rw [if_neg hsame]
        by_cases hstream : new = VideoState.streaming
        · rw [if_pos hstream]
          constructor
          · intro v hv
            show v = new
            by_cases hvs : v = VideoState.streaming
            · rw [hvs, hstream]
            · have hv' : (if v = VideoState.streaming then st.surfaces v
                  else pauseReset (st.surfaces v)).paused = false := hv
              rw [if_neg hvs, pauseReset_paused] at hv'
              exact absurd hv' (by simp)
          · intro v hv
            have hv' : (if v = VideoState.streaming then st.surfaces v
                else pauseReset (st.surfaces v)).paused = true := hv
            show (if v = VideoState.streaming then st.surfaces v
                else pauseReset (st.surfaces v)).currentTime = 0
            by_cases hvs : v = VideoState.streaming
            · rw [if_pos hvs] at hv' ⊢
              exact h.2 v hv'
            · rw [if_neg hvs]
              exact pauseReset_time _ (h.2 v)
        · rw [if_neg hstream]
          constructor
          · intro v hv
            show v = new
            by_cases hvn : v = new
            · exact hvn
            · have hv' : (if v = new then (⟨false, 0⟩ : Surface)
                  else pauseReset (st.surfaces v)).paused = false := hv
              rw [if_neg hvn, pauseReset_paused] at hv'
              exact absurd hv' (by simp)
          · intro v hv
            have hv' : (if v = new then (⟨false, 0⟩ : Surface)
                else pauseReset (st.surfaces v)).paused = true := hv
            show (if v = new then (⟨false, 0⟩ : Surface)
                else pauseReset (st.surfaces v)).currentTime = 0
            by_cases hvn : v = new
            · rw [if_pos hvn]
            · rw [if_neg hvn]
              exact pauseReset_time _ (h.2 v)

theorem presInv_prun (evs : List PEv) : PresInv (prun evs) := by
  have hgen : ∀ (l : List PEv) (st : PresState), PresInv st →
      PresInv (l.foldl pstep st) := by
    intro l
    induction l with
    | nil => exact fun st hst => hst
    | cons e rest ih => exact fun st hst => ih _ (presInv_pstep hst e)
  exact hgen evs PresState.start presInv_start

theorem activeCount_le_one {ss : Surfaces} {vs : VideoState}
    (h : ∀ v, (ss v).paused = false → v = vs) : activeCount ss ≤ 1 := by
  have hz : ∀ v, v ≠ vs → (if (ss v).paused then 0 else 1) = 0 := by
    intro v hv
    cases hp : (ss v).paused
    · exact absurd (h v hp) hv
    · simp
  unfold activeCount
  cases vs with
  | loop =>
      rw [hz VideoState.intro (by simp), hz VideoState.streaming (by simp),
        hz VideoState.ending (by simp), hz VideoState.error (by simp)]
      split <;> omega
  | intro =>
      rw [hz VideoState.loop (by simp), hz VideoState.streaming (by simp),
        hz VideoState.ending (by simp), hz VideoState.error (by simp)]
      split <;> omega
  | streaming =>
      rw [hz VideoState.loop (by simp), hz VideoState.intro (by simp),
        hz VideoState.ending (by simp), hz VideoState.error (by simp)]
      split <;> omega
  | ending =>
      rw [hz VideoState.loop (by simp), hz VideoState.intro (by simp),
        hz VideoState.streaming (by simp), hz VideoState.error (by simp)]
      split <;> omega
  | error =>
      rw [hz VideoState.loop (by simp), hz VideoState.intro (by simp),
        hz VideoState.streaming (by simp), hz VideoState.ending (by simp)]
      split <;> omega

/-- Claim C4 counterexample: the claim demands that after any sequence of
transition events exactly one surface is active, in every reachable state
including STREAMING; but a transition into streaming pauses the other
surfaces without starting the stream element, so right after the very
first transition-to-streaming event zero surfaces are playing. -/
theorem C4_counterexample :
    ¬ (∀ evs : List PEv,
        activeCount (prun evs).surfaces = 1 ∧
        ∀ v, v ≠ (prun evs).videoState →
          ((prun evs).surfaces v).paused = true ∧
          ((prun evs).surfaces v).currentTime = 0) := by
  intro h
  have h1 := (h [PEv.transition VideoState.streaming]).1
  have h0 : activeCount (prun [PEv.transition VideoState.streaming]).surfaces = 0 := by
    decide
  omega

/-- Claim C4 (amended): after any sequence of transition and playback
events, at most one surface is playing; a playing surface is always the
one of the current presentation state (a transition into STREAMING may
leave zero playing, since the controller does not start the stream
element itself); and every paused surface is reset to its start
position. -/
theorem C4_at_most_one_active :
    ∀ evs : List PEv,
      activeCount (prun evs).surfaces ≤ 1 ∧
      (∀ v, ((prun evs).surfaces v).paused = false → v = (prun evs).videoState) ∧
      (∀ v, ((prun evs).surfaces v).paused = true →
        ((prun evs).surfaces v).currentTime = 0) := by
  intro evs
  have h := presInv_prun evs
  exact ⟨activeCount_le_one h.1, h.1, h.2⟩

/-- Witness for C4 at a concrete trace: after a transition to intro, at
most one surface plays, the playing surface is intro, and the paused loop
surface is at position 0. -/
theorem C4_at_most_one_active_witness :
    activeCount (prun [PEv.transition VideoState.intro]).surfaces ≤ 1 ∧
    VideoState.intro = (prun [PEv.transition VideoState.intro]).videoState ∧
    ((prun [PEv.transition VideoState.intro]).surfaces VideoState.loop).currentTime
      = 0 :=
  ⟨(C4_at_most_one_active [PEv.transition VideoState.intro]).1,
   (C4_at_most_one_active [PEv.transition VideoState.intro]).2.1 VideoState.intro
     (by decide),
   (C4_at_most_one_active [PEv.transition VideoState.intro]).2.2 VideoState.loop
     (by decide)⟩

end Presentation

namespace Session

/-- StreamingAvatarSessionState of the session hook. -/
inductive SessState
  | INACTIVE
  | CONNECTING
  | CONNECTED
deriving DecidableEq, Repr

/-- The context state touched by useStreamingAvatarSession.stop. -/
structure SessionM where
  sessionState : SessState
  hasAvatar : Bool
  stream : Bool
  isMuted : Bool
  isVoiceChatActive : Bool
  isListening : Bool
  isUserTalking : Bool
  isAvatarTalking : Bool
deriving DecidableEq, Repr

/-- Counters of the externally observable teardown calls made by stop. -/
structure Calls where
  clearMessages : Nat
  closeVoiceChat : Nat
  stopAvatarCalls : Nat
deriving DecidableEq, Repr

structure StopResult where
  state : SessionM
  calls : Calls
  threw : Bool
deriving DecidableEq, Repr

/-- useVoiceChat.stopVoiceChat: a no-op without an avatar handle;
otherwise closes the voice chat, deactivates it and forces mute. -/
def stopVoiceChat (m : SessionM) (c : Calls) : SessionM × Calls :=
  if m.hasAvatar then
    ({ m with isVoiceChatActive := false, isMuted := true },
     { c with closeVoiceChat := c.closeVoiceChat + 1 })
  else (m, c)

/-- useStreamingAvatarSession.stop: unregister the stream handler, clear
the message history, stop voice chat, reset the talking flags, release
the stream, await the external stopAvatar (whose possible rejection is
not caught and aborts the rest), then set the state to INACTIVE. -/
def stop (teardownThrows : Bool) (m : SessionM) (c : Calls) : StopResult :=
  (fun (mc : SessionM × Calls) =>
    (fun (m2 : SessionM) =>
      if m2.hasAvatar then
        if teardownThrows then
          { state := m2
            calls := { mc.2 with stopAvatarCalls := mc.2.stopAvatarCalls + 1 }
            threw := true }
        else
          { state := { m2 with sessionState := SessState.INACTIVE }
            calls := { mc.2 with stopAvatarCalls := mc.2.stopAvatarCalls + 1 }
            threw := false }
      else
        { state := { m2 with sessionState := SessState.INACTIVE }
          calls := mc.2, threw := false })
    { mc.1 with isListening := false, isUserTalking := false
                isAvatarTalking := false, stream := false })
  (stopVoiceChat m { c with clearMessages := c.clearMessages + 1 })

/-- A concrete already-INACTIVE context that still has an avatar handle
(stop never nulls avatarRef), as after a completed stop. -/
def m0 : SessionM :=
  { sessionState := SessState.INACTIVE, hasAvatar := true, stream := false
    isMuted := true, isVoiceChatActive := false, isListening := false
    isUserTalking := false, isAvatarTalking := false }

/-- A connected session with an avatar handle. -/
def m1 : SessionM :=
  { sessionState := SessState.CONNECTED, hasAvatar := true, stream := true
    isMuted := false, isVoiceChatActive := true, isListening := true
    isUserTalking := false, isAvatarTalking := false }

def c0 : Calls := { clearMessages := 0, closeVoiceChat := 0, stopAvatarCalls := 0 }

/-- Claim C5 counterexample: stop has no INACTIVE guard.  Called on an
already-INACTIVE context it still clears the message history, closes the
voice chat and calls the external stopAvatar; a second consecutive call
performs a second full teardown (two external stop calls in total). -/
theorem C5_counterexample :
    (stop false m0 c0).calls.clearMessages = 1 ∧
    (stop false m0 c0).calls.closeVoiceChat = 1 ∧
    (stop false m0 c0).calls.stopAvatarCalls = 1 ∧
    (stop false (stop false m0 c0).state (stop false m0 c0).calls).calls.stopAvatarCalls
      = 2 := by
  decide

/-- Claim C5 (amended): stop is unguarded - from any state, including
INACTIVE, it repeats the full teardown (one more message-history clear
and, whenever an avatar handle exists, one more external stop call) and
re-issues the INACTIVE transition.  It is idempotent only at the state
level: the context state after two consecutive stops equals the state
after one. -/
theorem C5_stop_state_idempotent :
    ∀ (m : SessionM) (c : Calls),
      (stop false (stop false m c).state (stop false m c).calls).state
        = (stop false m c).state ∧
      (stop false (stop false m c).state (stop false m c).calls).calls.clearMessages
        = (stop false m c).calls.clearMessages + 1 ∧
      (stop false (stop false m c).state (stop false m c).calls).calls.stopAvatarCalls
        = (stop false m c).calls.stopAvatarCalls
            + (if m.hasAvatar then 1 else 0) := by
  intro m c
  by_cases hA : m.hasAvatar
  · simp [stop, stopVoiceChat, hA]
  · simp [stop, stopVoiceChat, hA]

/-- Claim C6 counterexample: when the external stopAvatar rejects, stop
re-throws (the await is not wrapped in try/catch) and the INACTIVE
transition never happens - the session state stays CONNECTED. -/
theorem C6_counterexample :
    (stop true m1 c0).threw = true ∧
    (stop true m1 c0).state.sessionState = SessState.CONNECTED := by
  decide

/-- Claim C6 (amended): if the external teardown primitive throws during
stop, the exception propagates to the caller and the INACTIVE transition
is skipped - the session state is left exactly as it was - although the
local cleanup preceding the await (message-history clear, voice-chat
close with forced mute, stream release) has already happened. -/
theorem C6_teardown_throw_propagates :
    ∀ (m : SessionM) (c : Calls), m.hasAvatar = true →
      (stop true m c).threw = true ∧
      (stop true m c).state.sessionState = m.sessionState ∧
      (stop true m c).state.stream = false ∧
      (stop true m c).state.isMuted = true ∧
      (stop true m c).calls.clearMessages = c.clearMessages + 1 ∧
      (stop true m c).calls.stopAvatarCalls = c.stopAvatarCalls + 1 := by
  intro m c hA
  simp [stop, stopVoiceChat, hA]

/-- Witness for C6 on a connected session with an avatar handle. -/
theorem C6_teardown_throw_propagates_witness :
    (stop true m1 c0).threw = true ∧
    (stop true m1 c0).state.sessionState = m1.sessionState ∧
    (stop true m1 c0).state.stream = false ∧
    (stop true m1 c0).state.isMuted = true ∧
    (stop true m1 c0).calls.clearMessages = c0.clearMessages + 1 ∧
    (stop true m1 c0).calls.stopAvatarCalls = c0.stopAvatarCalls + 1 :=
  C6_teardown_throw_propagates m1 c0 (by decide)

end Session

namespace Monitor

/-- The operations inside the try block of startMonitoring that can
throw. -/
inductive ThrowPoint
  | atCreateContext
  | atCreateSource
  | atCreateAnalyser
  | atConnect
deriving DecidableEq, Repr

/-- The environment a startMonitoring call observes: whether the video
element has a srcObject, how many audio tracks the stream has, and which
initialization step (if any) throws. -/
structure MonEnv where
  hasStream : Bool
  audioTracks : Nat
  failAt : Option ThrowPoint
deriving DecidableEq, Repr

/-- The refs of useAudioMonitor plus a resource ledger: every AudioContext
ever constructed, every one closed, and the currently scheduled sampling
intervals.  The three volume-tracking refs are modelled separately in the
VolumeGate section and omitted here. -/
structure MonState where
  audioCtx : Option Nat
  source : Bool
  analyser : Bool
  dataArr : Bool
  interval : Option Nat
  isMonitoring : Bool
  ctxCreated : List Nat
  ctxClosed : List Nat
  intervals : List Nat
  nextId : Nat
deriving DecidableEq, Repr

def MonState.start : MonState :=
  { audioCtx := none, source := false, analyser := false, dataArr := false
    interval := none, isMonitoring := false
    ctxCreated := [], ctxClosed := [], intervals := [], nextId := 0 }

/-- new AudioContext(); createMediaStreamSource is next. -/
def ctxStage (s : MonState) : MonState :=
  { s with audioCtx := some s.nextId, ctxCreated := s.nextId :: s.ctxCreated
           nextId := s.nextId + 1 }

/-- createMediaStreamSource succeeded. -/
def sourceStage (s : MonState) : MonState := { s with source := true }

/-- createAnalyser, fftSize, smoothingTimeConstant and the data array. -/
def analyserStage (s : MonState) : MonState :=
  { s with analyser := true, dataArr := true }

/-- connect succeeded; setInterval schedules the sampler and monitoring
is flagged active. -/
def intervalStage (s : MonState) : MonState :=
  { s with interval := some s.nextId, intervals := s.nextId :: s.intervals
           nextId := s.nextId + 1, isMonitoring := true }

/-- The try block of startMonitoring: return early without tracks,
otherwise run the initialization stages; a throw carries the partially
updated refs, exactly as a JavaScript exception leaves them. -/
def tryBody (env : MonEnv) (s : MonState) :
    Except (ThrowPoint × MonState) MonState :=
  if env.audioTracks = 0 then Except.ok s
  else if env.failAt = some ThrowPoint.atCreateContext then
    Except.error (ThrowPoint.atCreateContext, s)
  else if env.failAt = some ThrowPoint.atCreateSource then
    Except.error (ThrowPoint.atCreateSource, ctxStage s)
  else if env.failAt = some ThrowPoint.atCreateAnalyser then
    Except.error (ThrowPoint.atCreateAnalyser, sourceStage (ctxStage s))
  else if env.failAt = some ThrowPoint.atConnect then
    Except.error (ThrowPoint.atConnect, analyserStage (sourceStage (ctxStage s)))
  else Except.ok (intervalStage (analyserStage (sourceStage (ctxStage s))))

/-- startMonitoring as an exception-observable function: the two guards
return early, and the catch block turns any initialization throw into a
normal return with the partial state. -/
def startMonitoringE (env : MonEnv) (s : MonState) : Except ThrowPoint MonState :=
  if s.isMonitoring = true then Except.ok s
  else if env.hasStream = false then Except.ok s
  else
    match tryBody env s with
    | Except.ok t => Except.ok t
    | Except.error (_, t) => Except.ok t

/-- startMonitoring of useAudioMonitor.ts. -/
def startMonitoring (env : MonEnv) (s : MonState) : MonState :=
  match startMonitoringE env s with
  | Except.ok t => t
  | Except.error _ => s

/-- clearInterval(intervalRef.current); intervalRef.current = null. -/
def clearIntervalM (s : MonState) : MonState :=
  match s.interval with
  | some i => { s with intervals := s.intervals.erase i, interval := none }
  | none => s

/-- audioContextRef.current.close(); audioContextRef.current = null. -/
def closeCtx (s : MonState) : MonState :=
  match s.audioCtx with
  | some c => { s with ctxClosed := c :: s.ctxClosed, audioCtx := none }
  | none => s

/-- stopMonitoring of useAudioMonitor.ts: an early return when not
monitoring, otherwise clear the interval, disconnect the source, close
the context and reset every ref. -/
def stopMonitoring (s : MonState) : MonState :=
  if s.isMonitoring = false then s
  else
    { closeCtx { clearIntervalM s with source := false } with
        analyser := false, dataArr := false, isMonitoring := false }

inductive MEv
  | start (env : MonEnv)
  | stop
deriving DecidableEq, Repr

def mstep (s : MonState) (e : MEv) : MonState :=
  match e with
  | .start env => startMonitoring env s
  | .stop => stopMonitoring s

def mrun (evs : List MEv) : MonState := evs.foldl mstep MonState.start

/-- AudioContexts that were constructed and never closed. -/
def liveCtxCount (s : MonState) : Nat :=
  (s.ctxCreated.filter (fun c => !(s.ctxClosed.contains c))).length

theorem startMonitoring_of_monitoring (env : MonEnv) {s : MonState}
    (h : s.isMonitoring = true) : startMonitoring env s = s := by
  unfold startMonitoring startMonitoringE
  rw [if_pos h]

theorem startMonitoring_of_noStream (env : MonEnv) (s : MonState)
    (h : env.hasStream = false) : startMonitoring env s = s := by
  unfold startMonitoring startMonitoringE
  by_cases hm : s.isMonitoring = true
  · rw [if_pos hm]
  · rw [if_neg hm, if_pos h]

theorem startMonitoring_ok {env : MonEnv} {s t : MonState}
    (hm : ¬ s.isMonitoring = true) (hs : ¬ env.hasStream = false)
    (h : tryBody env s = Except.ok t) : startMonitoring env s = t := by
  unfold startMonitoring startMonitoringE
  rw [if_neg hm, if_neg hs, h]

theorem startMonitoring_err {env : MonEnv} {s t : MonState} {p : ThrowPoint}
    (hm : ¬ s.isMonitoring = true) (hs : ¬ env.hasStream = false)
    (h : tryBody env s = Except.error (p, t)) : startMonitoring env s = t := by
  unfold startMonitoring startMonitoringE
  rw [if_neg hm, if_neg hs, h]

theorem startMonitoring_of_noTracks (env : MonEnv) (s : MonState)
    (h : env.audioTracks = 0) : startMonitoring env s = s := by
  by_cases hm : s.isMonitoring = true
  · exact startMonitoring_of_monitoring env hm
  · by_cases hs : env.hasStream = false
    · exact startMonitoring_of_noStream env s hs
    · exact startMonitoring_ok hm hs (by unfold tryBody; rw [if_pos h])

/-- The outcome of the try block: the early no-tracks return, the full
initialization, or a throw whose partial state has untouched interval and
monitoring fields. -/
theorem tryBody_spec (env : MonEnv) (s : MonState) :
    tryBody env s = Except.ok s ∨
    tryBody env s
      = Except.ok (intervalStage (analyserStage (sourceStage (ctxStage s)))) ∨
    (∃ p t, tryBody env s = Except.error (p, t) ∧ t.intervals = s.intervals
      ∧ t.interval = s.interval ∧ t.isMonitoring = s.isMonitoring) := by
  unfold tryBody
  by_cases h0 : env.audioTracks = 0
  · rw [if_pos h0]
    exact Or.inl rfl
  · rw [if_neg h0]
    by_cases h1 : env.failAt = some ThrowPoint.atCreateContext
    · rw [if_pos h1]
      exact Or.inr (Or.inr ⟨_, _, rfl, rfl, rfl, rfl⟩)
    · rw [if_neg h1]
      by_cases h2 : env.failAt = some ThrowPoint.atCreateSource
      · rw [if_pos h2]
        exact Or.inr (Or.inr ⟨_, _, rfl, rfl, rfl, rfl⟩)
      · rw [if_neg h2]
        by_cases h3 : env.failAt = some ThrowPoint.atCreateAnalyser
        · rw [if_pos h3]
          exact Or.inr (Or.inr ⟨_, _, rfl, rfl, rfl, rfl⟩)
        · rw [if_neg h3]
          by_cases h4 : env.failAt = some ThrowPoint.atConnect
          · rw [if_pos h4]
            exact Or.inr (Or.inr ⟨_, _, rfl, rfl, rfl, rfl⟩)
          · rw [if_neg h4]
            exact Or.inr (Or.inl rfl)

/-- At most one sampling interval is ever scheduled: when not monitoring
there is none, when monitoring exactly the one the ref points at. -/
def IntervalInv (s : MonState) : Prop :=
  (s.isMonitoring = false → s.intervals = [] ∧ s.interval = none) ∧
  (s.isMonitoring = true → ∃ i, s.interval = some i ∧ s.intervals = [i])

theorem intervalInv_start : IntervalInv MonState.start := by
  constructor
  · intro _
    exact ⟨rfl, rfl⟩
  · intro h
    exact absurd h (by simp [MonState.start])

theorem intervalInv_mstep {s : MonState} (h : IntervalInv s) (e : MEv) :
    IntervalInv (mstep s e) := by
  cases e with
  | start env =>
      show IntervalInv (startMonitoring env s)
      by_cases hm : s.isMonitoring = true
      · rw [startMonitoring_of_monitoring env hm]
        exact h
      · by_cases hs : env.hasStream = false
        · rw [startMonitoring_of_noStream env s hs]
          exact h
        · have hmf : s.isMonitoring = false := by
            cases hb : s.isMonitoring
            · rfl
            · exact absurd hb hm
          have hempty := h.1 hmf
          rcases tryBody_spec env s with hok | hfull | ⟨p, t, herr, ht1, ht2, ht3⟩
          · rw [startMonitoring_ok hm hs hok]
            exact h
          · rw [startMonitoring_ok hm hs hfull]
            constructor
            · intro habs
              have : True = False := by
                have h1 : (intervalStage (analyserStage (sourceStage (ctxStage s)))).isMonitoring = true := rfl
                rw [habs] at h1
                exact absurd h1 (by simp)
              exact absurd this (by simp)
            · intro _
              refine ⟨(ctxStage s).nextId, rfl, ?_⟩
              show (ctxStage s).nextId :: s.intervals = [(ctxStage s).nextId]
              rw [hempty.1]
          · rw [startMonitoring_err hm hs herr]
            constructor
            · intro hf
              rw [ht1, ht2]
              exact h.1 (by rw [← ht3]; exact hf)
            · intro ht
              rw [ht2, ht1]
              rcases h.2 (by rw [← ht3]; exact ht) with ⟨i, hi, hl⟩
              exact ⟨i, hi, hl⟩
  | stop =>
      show IntervalInv (stopMonitoring s)
      by_cases hm : s.isMonitoring = false
      · unfold stopMonitoring
        rw [if_pos hm]
        exact h
      · have hmt : s.isMonitoring = true := by
          cases hb : s.isMonitoring
          · exact absurd hb hm
          · rfl
        rcases h.2 hmt with ⟨i, hi, hl⟩
        have hclear : clearIntervalM s
            = { s with intervals := s.intervals.erase i, interval := none } := by
          unfold clearIntervalM
          rw [hi]
        have hstop : stopMonitoring s
            = { closeCtx { clearIntervalM s with source := false } with
                  analyser := false, dataArr := false, isMonitoring := false } := by
          unfold stopMonitoring
          rw [if_neg hm]
        rw [hstop]
        constructor
        · intro _
          have hci : (closeCtx { clearIntervalM s with source := false }).intervals
              = (clearIntervalM s).intervals := by
            unfold closeCtx
            cases ({ clearIntervalM s with source := false } : MonState).audioCtx <;> rfl
          have hcj : (closeCtx { clearIntervalM s with source := false }).interval
              = (clearIntervalM s).interval := by
            unfold closeCtx
            cases ({ clearIntervalM s with source := false } : MonState).audioCtx <;> rfl
          constructor
          · show (closeCtx { clearIntervalM s with source := false }).intervals = []
            rw [hci, hclear]
            show s.intervals.erase i = []
            rw [hl]
            simp
          · show (closeCtx { clearIntervalM s with source := false }).interval = none
            rw [hcj, hclear]
        · intro habs
          exact absurd habs (by simp)

theorem intervalInv_mrun (evs : List MEv) : IntervalInv (mrun evs) := by
  have hgen : ∀ (l : List MEv) (s : MonState), IntervalInv s →
      IntervalInv (l.foldl mstep s) := by
    intro l
    induction l with
    | nil => exact fun s hs => hs
    | cons e rest ih => exact fun s hs => ih _ (intervalInv_mstep hs e)
  exact hgen evs MonState.start intervalInv_start

/-- An environment where graph initialization throws at createAnalyser. -/
def envFail : MonEnv :=
  { hasStream := true, audioTracks := 1, failAt := some ThrowPoint.atCreateAnalyser }

/-- An environment where everything succeeds. -/
def envOk : MonEnv := { hasStream := true, audioTracks := 1, failAt := none }

/-- Claim C10 counterexample: a startMonitoring whose graph
initialization throws midway leaves an AudioContext constructed but never
closed (and isMonitoring still false, so stopMonitoring would not clean
it either); a subsequent successful startMonitoring constructs a second
context, so two unclosed audio-analysis graphs exist in a reachable
state. -/
theorem C10_counterexample :
    ¬ (∀ evs : List MEv, liveCtxCount (mrun evs) ≤ 1) := by
  intro h
  have h1 := h [MEv.start envFail, MEv.start envOk]
  have h2 : liveCtxCount (mrun [MEv.start envFail, MEv.start envOk]) = 2 := by
    decide
  omega

/-- Claim C10 (amended): startMonitoring is a guarded no-op when
monitoring is already active, when the element has no stream, or when the
stream has no audio tracks; in every reachable state at most one sampling
interval is scheduled; and startMonitoring never throws - every
initialization failure is caught and turned into a normal return.  (The
claimed at-most-one audio-analysis graph does not hold: a throw during
graph initialization leaks an unclosed AudioContext that a later
successful start duplicates.) -/
theorem C10_monitor_guards :
    (∀ evs : List MEv, (mrun evs).intervals.length ≤ 1) ∧
    (∀ (env : MonEnv) (s : MonState), s.isMonitoring = true →
      startMonitoring env s = s) ∧
    (∀ (env : MonEnv) (s : MonState), env.hasStream = false →
      startMonitoring env s = s) ∧
    (∀ (env : MonEnv) (s : MonState), env.audioTracks = 0 →
      startMonitoring env s = s) ∧
    (∀ (env : MonEnv) (s : MonState),
      startMonitoringE env s = Except.ok (startMonitoring env s)) := by
  refine ⟨?_, ?_, ?_, ?_, ?_⟩
  · intro evs
    have h := intervalInv_mrun evs
    cases hb : (mrun evs).isMonitoring
    · rw [(h.1 hb).1]
      simp
    · rcases h.2 hb with ⟨i, _, hl⟩
      rw [hl]
      simp
  · exact fun env s h => startMonitoring_of_monitoring env h
  · exact fun env s h => startMonitoring_of_noStream env s h
  · exact fun env s h => startMonitoring_of_noTracks env s h
  · intro env s
    unfold startMonitoring startMonitoringE
    by_cases hm : s.isMonitoring = true
    · rw [if_pos hm]
    · rw [if_neg hm]
      by_cases hs : env.hasStream = false
      · rw [if_pos hs]
      · rw [if_neg hs]
        cases htb : tryBody env s with
        | ok t => rfl
        | error pt => cases pt with | mk p t => rfl

/-- Witness for C10 at concrete inputs: each guard is exercised and a
double start schedules at most one interval. -/
theorem C10_monitor_guards_witness :
    (mrun [MEv.start envOk, MEv.start envOk]).intervals.length ≤ 1 ∧
    startMonitoring envOk (mrun [MEv.start envOk]) = mrun [MEv.start envOk] ∧
    startMonitoring { hasStream := false, audioTracks := 1, failAt := none }
      MonState.start = MonState.start ∧
    startMonitoring { hasStream := true, audioTracks := 0, failAt := none }
      MonState.start = MonState.start :=
  ⟨C10_monitor_guards.1 [MEv.start envOk, MEv.start envOk],
   C10_monitor_guards.2.1 envOk (mrun [MEv.start envOk]) (by decide),
   C10_monitor_guards.2.2.1 { hasStream := false, audioTracks := 1, failAt := none }
     MonState.start (by decide),
   C10_monitor_guards.2.2.2.1 { hasStream := true, audioTracks := 0, failAt := none }
     MonState.start (by decide)⟩

end Monitor
